import Mathlib

/-!
A shallow embedding of the giveaway lifecycle engine of the
Better-Giveaways bot (src/cogs/utils/giveaway.py, src/cogs/tasks.py).

Timestamps are modelled as integers (any linearly ordered instant works for
the comparisons the code performs).  The database is modelled as an explicit
`Store` state, each SQL statement as a pure function on it; the Discord
collaborator is a record of functions; `random.choice` takes an explicit
seed and picks the element at index `seed % length`.
-/

namespace BetterGiveaways

/-- A typed dictionary for a giveaway role reward row (`GiveawayRoleRewardDict`). -/
structure GiveawayRoleRewardDict where
  role_id : Int
deriving DecidableEq, Repr

/-- The `GiveawayRoleReward` dataclass: the role granted to the winner. -/
structure GiveawayRoleReward where
  role_id : Int
deriving DecidableEq, Repr

/-- `GiveawayRoleReward.from_dict`. -/
def GiveawayRoleReward.from_dict (data : GiveawayRoleRewardDict) : GiveawayRoleReward :=
  ⟨data.role_id⟩

/-- The `Giveaway` dataclass. -/
structure Giveaway where
  guild_id : Int
  channel_id : Int
  message_id : Int
  ends_at : Int
  role_rewards : Option (List GiveawayRoleReward) := none
deriving DecidableEq, Repr

/-- `Giveaway.__generate_id`: the composite string identifier. -/
def generate_id (guild_id channel_id message_id : Int) : String :=
  toString guild_id ++ "/" ++ toString channel_id ++ "/" ++ toString message_id

/-- The `Giveaway._id` property: identifier derived from the three ids. -/
def Giveaway._id (gw : Giveaway) : String :=
  generate_id gw.guild_id gw.channel_id gw.message_id

/-- A typed dictionary for the Giveaway dataclass (`GiveawayDict`), as handed
to `Giveaway.from_dict`.  A database row for the `giveaways` table carries no
`role_rewards` key, which is modelled by `none`. -/
structure GiveawayDict where
  guild_id : Int
  channel_id : Int
  message_id : Int
  ends_at : Int
  role_rewards : Option (List GiveawayRoleRewardDict)
deriving DecidableEq, Repr

/-- `Giveaway.from_dict`: `data.get("role_rewards") or []` maps a missing or
empty reward list to `[]`, then each entry goes through
`GiveawayRoleReward.from_dict`. -/
def Giveaway.from_dict (data : GiveawayDict) : Giveaway :=
  { guild_id := data.guild_id
    channel_id := data.channel_id
    message_id := data.message_id
    ends_at := data.ends_at
    role_rewards := some ((data.role_rewards.getD []).map GiveawayRoleReward.from_dict) }

/-- A row of the `giveaways` table. -/
structure GiveawayRow where
  id : String
  guild_id : Int
  channel_id : Int
  message_id : Int
  ends_at : Int
deriving DecidableEq, Repr

/-- A row of the `giveaway_role_rewards` table. -/
structure RoleRewardRow where
  role_id : Int
  giveaway_id : String
deriving DecidableEq, Repr

/-- The database state: the two tables, rows in storage order. -/
structure Store where
  giveaways : List GiveawayRow
  giveaway_role_rewards : List RoleRewardRow
deriving DecidableEq, Repr

def Store.empty : Store := ⟨[], []⟩

/-- `SELECT * FROM giveaways WHERE id = $1`. -/
def selectGiveawaysById (s : Store) (id : String) : List GiveawayRow :=
  s.giveaways.filter (fun r => r.id = id)

/-- `INSERT INTO giveaways VALUES ... ON CONFLICT (id) DO UPDATE SET ...`:
a row with the same `id` is overwritten in place, otherwise the new row is
appended. -/
def upsertGiveawayRow (s : Store) (row : GiveawayRow) : Store :=
  if s.giveaways.any (fun r => r.id = row.id) then
    { s with giveaways := s.giveaways.map (fun r => if r.id = row.id then row else r) }
  else
    { s with giveaways := s.giveaways ++ [row] }

/-- `INSERT INTO giveaway_role_rewards VALUES ($1, $2)
ON CONFLICT (role_id, giveaway_id) DO UPDATE SET ...`. -/
def upsertRewardRow (s : Store) (row : RoleRewardRow) : Store :=
  let hit := fun (r : RoleRewardRow) =>
    r.role_id = row.role_id ∧ r.giveaway_id = row.giveaway_id
  if s.giveaway_role_rewards.any (fun r => hit r) then
    { s with giveaway_role_rewards :=
        s.giveaway_role_rewards.map (fun r => if hit r then row else r) }
  else
    { s with giveaway_role_rewards := s.giveaway_role_rewards ++ [row] }

/-- `DELETE FROM giveaways WHERE id = $1`. -/
def deleteGiveawayRows (s : Store) (id : String) : Store :=
  { s with giveaways := s.giveaways.filter (fun r => r.id ≠ id) }

/-- The giveaway row written by `Giveaway.update`. -/
def Giveaway.toRow (gw : Giveaway) : GiveawayRow :=
  ⟨gw._id, gw.guild_id, gw.channel_id, gw.message_id, gw.ends_at⟩

/-- `Giveaway.update`: upsert the giveaway row, then, when `role_rewards` is
not `None`, upsert each reward row on `(role_id, giveaway_id)`. -/
def Giveaway.update (gw : Giveaway) (s : Store) : Store :=
  let s1 := upsertGiveawayRow s gw.toRow
  match gw.role_rewards with
  | none => s1
  | some rewards =>
      rewards.foldl (fun st reward => upsertRewardRow st ⟨reward.role_id, gw._id⟩) s1

/-- A `giveaways` row converted to the dictionary handed to
`Giveaway.from_dict` (no `role_rewards` key). -/
def GiveawayRow.toDict (r : GiveawayRow) : GiveawayDict :=
  ⟨r.guild_id, r.channel_id, r.message_id, r.ends_at, none⟩

/-- `Giveaway.from_database`: fetch by composite id; `payload[0]` with the
`IndexError` handler is "first row or not-found". -/
def Giveaway.from_database (s : Store) (guild_id channel_id message_id : Int) :
    Option Giveaway :=
  let payload := selectGiveawaysById s (generate_id guild_id channel_id message_id)
  match payload with
  | [] => none
  | data :: _ => some (Giveaway.from_dict data.toDict)

/-- `get_giveaway`: fetch by a raw id string. -/
def get_giveaway (s : Store) (id : String) : Option Giveaway :=
  let payload := selectGiveawaysById s id
  match payload with
  | [] => none
  | data :: _ => some (Giveaway.from_dict data.toDict)

/-! ## The Discord collaborator, modelled abstractly -/

/-- A reacting user: id and bot flag. -/
structure User where
  id : Int
  bot : Bool
deriving DecidableEq, Repr

/-- A reaction on a message: its emoji and the users who added it
(`reaction.users()` enumerates them). -/
structure Reaction where
  emoji : String
  users : List User
deriving DecidableEq, Repr

/-- A fetched Discord message: its reactions, in order. -/
structure Message where
  reactions : List Reaction
deriving DecidableEq, Repr

/-- The exceptions `channel.fetch_message` can raise. -/
inductive FetchError where
  | notFound
  | forbidden
  | httpException
deriving DecidableEq, Repr

/-- A resolved channel: `fetch_message` by message id. -/
structure Channel where
  fetch_message : Int → Except FetchError Message

/-- The bot client capability used by `Giveaway.end`: `bot.get_channel`. -/
structure BotClient where
  get_channel : Int → Option Channel

/-- The fixed entry-reaction emoji (the party-popper reaction the code
compares against). -/
def entryEmoji : String := "🎉"

/-- What a reply announces: the conclusion outcomes sent via
`message.reply`. A winner announcement carries the winner's id, the
participant count, and the giveaway's `role_rewards` (all interpolated
into the reply string by the code). -/
inductive Announcement where
  | noWinner (participantCount : Nat)
  | winner (winner_id : Int) (participantCount : Nat)
      (role_rewards : Option (List GiveawayRoleReward))
deriving DecidableEq, Repr

/-- Observable interactions performed by `Giveaway.end`, in order. -/
inductive Event where
  | dbDelete (id : String)
  | getChannel (channel_id : Int)
  | fetchMessage (message_id : Int)
  | enumerateReactionUsers
  | reply (a : Announcement)
deriving DecidableEq, Repr

/-- Is this event an interaction with the store (rather than the messaging
collaborator)? -/
def Event.isStoreOp : Event → Bool
  | .dbDelete _ => true
  | _ => false

/-- The announcements among a trace of events. -/
def replies (evs : List Event) : List Announcement :=
  evs.filterMap (fun e => match e with | .reply a => some a | _ => none)

/-- `random.choice` over a non-empty list, with an explicit seed: the element
at index `seed % length`; a uniform seed yields each index equally often. -/
def randomChoice (seed : Nat) (x : α) (xs : List α) : α :=
  (x :: xs).get ⟨seed % (x :: xs).length, Nat.mod_lt _ (Nat.succ_pos _)⟩

/-- `Giveaway.end`: delete the store record first, then resolve the channel,
fetch the message, find the entry reaction, enumerate non-bot reactors, and
reply with the outcome; every absence stops silently.  Returns the new store
state and the ordered trace of interactions. -/
def Giveaway.«end» (gw : Giveaway) (seed : Nat) (s : Store) (bot : BotClient) :
    Store × List Event :=
  let s1 := deleteGiveawayRows s gw._id
  let ev1 := [Event.dbDelete gw._id, Event.getChannel gw.channel_id]
  match bot.get_channel gw.channel_id with
  | none => (s1, ev1)
  | some channel =>
    let ev2 := ev1 ++ [Event.fetchMessage gw.message_id]
    match channel.fetch_message gw.message_id with
    | .error _ => (s1, ev2)
    | .ok message =>
      match message.reactions.find? (fun r => r.emoji = entryEmoji) with
      | none => (s1, ev2)
      | some reaction =>
        let ev3 := ev2 ++ [Event.enumerateReactionUsers]
        let participants := reaction.users.filter (fun user => !user.bot)
        match participants with
        | [] =>
            (s1, ev3 ++ [Event.reply (.noWinner participants.length)])
        | p :: ps =>
            let winner := randomChoice seed p ps
            (s1, ev3 ++ [Event.reply
              (.winner winner.id participants.length gw.role_rewards)])

/-! ## The query service `get_giveaways` -/

/-- The storage queries `get_giveaways` can issue, in order. -/
inductive DbQuery where
  | selectByGuild (guild_id : Int)
  | selectByChannel (channel_id : Int)
  | selectByMessage (message_id : Int)
  | selectAll
  | selectRewards (giveaway_ids : List String)
deriving DecidableEq, Repr

/-- A value of the `payload` dict after `payload = row dict per id`: the
giveaway row, plus the `role_rewards` key once reward rows are appended
(`none` models the key being absent). -/
structure PayloadRow where
  row : GiveawayRow
  role_rewards : Option (List GiveawayRoleRewardDict)
deriving DecidableEq, Repr

/-- A payload entry converted to the dict handed to `Giveaway.from_dict`. -/
def PayloadRow.toDict (p : PayloadRow) : GiveawayDict :=
  ⟨p.row.guild_id, p.row.channel_id, p.row.message_id, p.row.ends_at, p.role_rewards⟩

/-- Python dict assignment `d[k] = v`: overwrite in place when the key
exists (keeping its position), append otherwise. -/
def dictInsert (d : List (String × PayloadRow)) (k : String) (v : PayloadRow) :
    List (String × PayloadRow) :=
  if d.any (fun p => p.1 = k) then
    d.map (fun p => if p.1 = k then (k, v) else p)
  else
    d ++ [(k, v)]

/-- `payload_row["role_rewards"].append(...)` with the `KeyError` handler
that starts the list: append one reward dict to the entry keyed by the
reward row's `giveaway_id`. -/
def dictAppendReward (d : List (String × PayloadRow)) (rr : RoleRewardRow) :
    List (String × PayloadRow) :=
  d.map (fun p =>
    if p.1 = rr.giveaway_id then
      (p.1, ⟨p.2.row, some ((p.2.role_rewards.getD []) ++ [⟨rr.role_id⟩])⟩)
    else p)

/-- The dict build, reward fetch and in-memory join performed at the end of
`get_giveaways` on the fetched giveaway rows: key the rows by id into a
dict, fetch the reward rows whose `giveaway_id` is among those keys, append
each onto its parent entry, and rebuild each entry via
`Giveaway.from_dict`.  Returns the dict keys (the id list passed to the
reward query) and the reconstructed giveaways. -/
def joinRewards (s : Store) (rows : List GiveawayRow) :
    List String × List Giveaway :=
  let payload : List (String × PayloadRow) :=
    rows.foldl (fun d r => dictInsert d r.id ⟨r, none⟩) []
  let ids : List String := payload.map (fun p => p.1)
  let payload_role_rewards : List RoleRewardRow :=
    s.giveaway_role_rewards.filter (fun rr => ids.contains rr.giveaway_id)
  let payload2 := payload_role_rewards.foldl dictAppendReward payload
  (ids, payload2.map (fun p => Giveaway.from_dict p.2.toDict))

/-- `get_giveaways`: at most one of the three filters may be supplied
(`ValueError` otherwise, before any query); the filtered giveaway rows are
then joined with their reward rows via `joinRewards`.  Returns the result
(or the error) together with the ordered trace of storage queries
performed. -/
def get_giveaways (s : Store) (guild channel message : Option Int) :
    Except String (List Giveaway) × List DbQuery :=
  if 1 < (([guild, channel, message].filter (fun arg => arg.isSome)).length) then
    (.error ("Must provide at most one of `guild`, `channel`, or `message`."), [])
  else
    let fetched : List GiveawayRow × DbQuery :=
      match guild, channel, message with
      | some guild_id, _, _ =>
          (s.giveaways.filter (fun r => r.guild_id = guild_id),
           .selectByGuild guild_id)
      | none, some channel_id, _ =>
          (s.giveaways.filter (fun r => r.channel_id = channel_id),
           .selectByChannel channel_id)
      | none, none, some message_id =>
          (s.giveaways.filter (fun r => r.message_id = message_id),
           .selectByMessage message_id)
      | none, none, none =>
          (s.giveaways, .selectAll)
    let joined := joinRewards s fetched.1
    (.ok joined.2, [fetched.2, .selectRewards joined.1])

/-! ## The expiry scheduler (`Tasks._giveaway_checker`) -/

/-- One tick of the giveaway checker loop: skip everything unless the bot is
ready, otherwise load all giveaways (no filter) and end each one whose
`ends_at` is less than or equal to now. -/
def giveaway_checker (ready : Bool) (now : Int) (seed : Nat) (s : Store)
    (bot : BotClient) : Store :=
  if !ready then s
  else
    match (get_giveaways s none none none).1 with
    | .error _ => s
    | .ok giveaways =>
        giveaways.foldl
          (fun st gw => if gw.ends_at ≤ now then (gw.«end» seed st bot).1 else st) s

/-- The store invariant established by `Giveaway.update`: ids are unique
(the primary key) and each row's `id` column is the identifier derived from
its three id columns. -/
def Store.WF (s : Store) : Prop :=
  (s.giveaways.map (fun r => r.id)).Nodup ∧
  ∀ r ∈ s.giveaways, r.id = generate_id r.guild_id r.channel_id r.message_id

instance (s : Store) : Decidable s.WF := by
  unfold Store.WF; infer_instance

/-! ## Basic lemmas about `Giveaway.end` and the store -/

/-- `Giveaway.end` changes the store in exactly one way, on every branch:
it deletes the rows matching the giveaway's identifier. -/
theorem end_fst (gw : Giveaway) (seed : Nat) (s : Store) (bot : BotClient) :
    (gw.«end» seed s bot).1 = deleteGiveawayRows s gw._id := by
  cases hch : bot.get_channel gw.channel_id with
  | none => simp [Giveaway.«end», hch]
  | some ch =>
    cases hm : ch.fetch_message gw.message_id with
    | error e => simp [Giveaway.«end», hch, hm]
    | ok msg =>
      cases hr : msg.reactions.find? (fun r => r.emoji = entryEmoji) with
      | none => simp [Giveaway.«end», hch, hm, hr]
      | some reaction =>
        cases hp : reaction.users.filter (fun user => !user.bot) with
        | nil => simp [Giveaway.«end», hch, hm, hr, hp]
        | cons p ps => simp [Giveaway.«end», hch, hm, hr, hp]

/-- Selecting by an id after deleting that id yields no rows. -/
theorem selectById_delete (s : Store) (id : String) :
    selectGiveawaysById (deleteGiveawayRows s id) id = [] := by
  unfold selectGiveawaysById deleteGiveawayRows
  simp only [List.filter_filter]
  apply List.filter_eq_nil_iff.mpr
  intro r _
  simp

/-- `FindOne` is not-found after the record is deleted. -/
theorem from_database_delete (s : Store) (g c m : Int) :
    Giveaway.from_database (deleteGiveawayRows s (generate_id g c m)) g c m = none := by
  unfold Giveaway.from_database
  rw [selectById_delete]

/-- The trace of `Giveaway.end` starts with the store deletion and performs
no further store operation afterwards. -/
theorem end_trace_head (gw : Giveaway) (seed : Nat) (s : Store) (bot : BotClient) :
    ∃ rest : List Event,
      (gw.«end» seed s bot).2 = Event.dbDelete gw._id :: rest ∧
      ∀ e ∈ rest, e.isStoreOp = false := by
  cases hch : bot.get_channel gw.channel_id with
  | none =>
    refine ⟨[Event.getChannel gw.channel_id], by simp [Giveaway.«end», hch], ?_⟩
    simp [Event.isStoreOp]
  | some ch =>
    cases hm : ch.fetch_message gw.message_id with
    | error e =>
      refine ⟨[Event.getChannel gw.channel_id, Event.fetchMessage gw.message_id],
        by simp [Giveaway.«end», hch, hm], ?_⟩
      simp [Event.isStoreOp]
    | ok msg =>
      cases hr : msg.reactions.find? (fun r => r.emoji = entryEmoji) with
      | none =>
        refine ⟨[Event.getChannel gw.channel_id, Event.fetchMessage gw.message_id],
          by simp [Giveaway.«end», hch, hm, hr], ?_⟩
        simp [Event.isStoreOp]
      | some reaction =>
        cases hp : reaction.users.filter (fun user => !user.bot) with
        | nil =>
          refine ⟨[Event.getChannel gw.channel_id, Event.fetchMessage gw.message_id,
            Event.enumerateReactionUsers, Event.reply (.noWinner 0)],
            by simp [Giveaway.«end», hch, hm, hr, hp], ?_⟩
          simp [Event.isStoreOp]
        | cons p ps =>
          refine ⟨[Event.getChannel gw.channel_id, Event.fetchMessage gw.message_id,
            Event.enumerateReactionUsers,
            Event.reply (.winner (randomChoice seed p ps).id (ps.length + 1) gw.role_rewards)],
            by simp [Giveaway.«end», hch, hm, hr, hp], ?_⟩
          simp [Event.isStoreOp]

/-- `FindOne` on the state left by `Giveaway.end` is not-found, on every
branch. -/
theorem from_database_end (gw : Giveaway) (seed : Nat) (s : Store) (bot : BotClient) :
    Giveaway.from_database (gw.«end» seed s bot).1
      gw.guild_id gw.channel_id gw.message_id = none := by
  rw [end_fst]
  exact from_database_delete s gw.guild_id gw.channel_id gw.message_id

/-! ## Claim theorems (first group) -/

/-- C1: in `Giveaway.end`, the deletion of the store record happens before
any interaction with the messaging collaborator — the trace starts with the
deletion, everything after it is a messaging interaction, and on every
branch the store record is already absent (`FindOne` returns not-found) by
the time any announcement could occur. -/
theorem conclude_deletes_store_before_messaging
    (gw : Giveaway) (seed : Nat) (s : Store) (bot : BotClient) :
    ∃ rest : List Event,
      (gw.«end» seed s bot).2 = Event.dbDelete gw._id :: rest ∧
      (∀ e ∈ rest, e.isStoreOp = false) ∧
      Giveaway.from_database (gw.«end» seed s bot).1
        gw.guild_id gw.channel_id gw.message_id = none := by
  obtain ⟨rest, h1, h2⟩ := end_trace_head gw seed s bot
  exact ⟨rest, h1, h2, from_database_end gw seed s bot⟩

/-- C3: supplying two or more of the filter dimensions to `get_giveaways`
fails with the `ValueError` and performs no storage query at all. -/
theorem get_giveaways_filter_exclusivity
    (s : Store) (guild channel message : Option Int)
    (h : 1 < (([guild, channel, message].filter (fun arg => arg.isSome)).length)) :
    get_giveaways s guild channel message
      = (.error ("Must provide at most one of `guild`, `channel`, or `message`."), []) := by
  unfold get_giveaways
  rw [if_pos h]

theorem get_giveaways_filter_exclusivity_witness :
    (1 < (([some (5 : Int), some (6 : Int), none].filter
      (fun arg => arg.isSome)).length)) ∧
    get_giveaways ⟨[⟨"1/2/3", 1, 2, 3, 100⟩], [⟨9, "1/2/3"⟩]⟩
        (some 5) (some 6) none
      = (.error ("Must provide at most one of `guild`, `channel`, or `message`."), []) :=
  ⟨by decide,
   get_giveaways_filter_exclusivity ⟨[⟨"1/2/3", 1, 2, 3, 100⟩], [⟨9, "1/2/3"⟩]⟩
     (some 5) (some 6) none (by decide)⟩

/-- C10: whenever at most one filter dimension is supplied, `get_giveaways`
returns a list (possibly empty) — never the `None` its annotation allows. -/
theorem get_giveaways_returns_list
    (s : Store) (guild channel message : Option Int)
    (h : (([guild, channel, message].filter (fun arg => arg.isSome)).length) ≤ 1) :
    ∃ gs : List Giveaway, (get_giveaways s guild channel message).1 = .ok gs := by
  unfold get_giveaways
  rw [if_neg (Nat.not_lt.mpr h)]
  exact ⟨_, rfl⟩

theorem get_giveaways_returns_list_witness :
    ((([none, none, none] : List (Option Int)).filter
      (fun arg => arg.isSome)).length ≤ 1) ∧
    ∃ gs : List Giveaway, (get_giveaways Store.empty none none none).1 = .ok gs :=
  ⟨by decide, get_giveaways_returns_list Store.empty none none none (by decide)⟩

/-- C6: when the non-bot participant list is non-empty, the winner is the
participant at index `seed % count` (so, over a uniformly random seed, each
index is selected equally often: for every `i < count`, seed `i` selects
participant `i`), the winner is a member of the participant list, and the
single reply announces the winner's id, the participant count and the
giveaway's rewards. -/
theorem conclude_with_participants
    (gw : Giveaway) (seed : Nat) (s : Store) (bot : BotClient)
    (ch : Channel) (msg : Message) (reaction : Reaction) (p : User) (ps : List User)
    (hch : bot.get_channel gw.channel_id = some ch)
    (hm : ch.fetch_message gw.message_id = Except.ok msg)
    (hr : msg.reactions.find? (fun r => r.emoji = entryEmoji) = some reaction)
    (hp : reaction.users.filter (fun user => !user.bot) = p :: ps) :
    randomChoice seed p ps ∈ p :: ps ∧
    replies (gw.«end» seed s bot).2
      = [Announcement.winner (randomChoice seed p ps).id (p :: ps).length gw.role_rewards] ∧
    ∀ i (h : i < (p :: ps).length), randomChoice i p ps = (p :: ps).get ⟨i, h⟩ := by
  refine ⟨List.get_mem _ _ _, ?_, ?_⟩
  · simp [Giveaway.«end», hch, hm, hr, hp, replies]
  · intro i h
    simp [randomChoice, Nat.mod_eq_of_lt (show i < ps.length + 1 by simpa using h)]

theorem conclude_with_participants_witness :
    randomChoice 0 (⟨7, false⟩ : User) [⟨9, false⟩] ∈ [(⟨7, false⟩ : User), ⟨9, false⟩] ∧
    replies ((⟨1, 2, 3, 100, some [⟨5⟩]⟩ : Giveaway).«end» 0 Store.empty
        ⟨fun _ => some ⟨fun _ =>
          Except.ok ⟨[⟨"🎉", [⟨7, false⟩, ⟨8, true⟩, ⟨9, false⟩]⟩]⟩⟩⟩).2
      = [Announcement.winner 7 2 (some [⟨5⟩])] ∧
    randomChoice 1 (⟨7, false⟩ : User) [⟨9, false⟩] = ⟨9, false⟩ := by
  obtain ⟨h1, h2, h3⟩ := conclude_with_participants
    ⟨1, 2, 3, 100, some [⟨5⟩]⟩ 0 Store.empty
    ⟨fun _ => some ⟨fun _ =>
      Except.ok ⟨[⟨"🎉", [⟨7, false⟩, ⟨8, true⟩, ⟨9, false⟩]⟩]⟩⟩⟩
    ⟨fun _ => Except.ok ⟨[⟨"🎉", [⟨7, false⟩, ⟨8, true⟩, ⟨9, false⟩]⟩]⟩⟩
    ⟨[⟨"🎉", [⟨7, false⟩, ⟨8, true⟩, ⟨9, false⟩]⟩]⟩
    ⟨"🎉", [⟨7, false⟩, ⟨8, true⟩, ⟨9, false⟩]⟩
    ⟨7, false⟩ [⟨9, false⟩] rfl rfl (by decide) (by decide)
  refine ⟨h1, h2.trans (by decide), (h3 1 (by decide)).trans (by decide)⟩

/-- C7: when the entry reaction exists but every reactor is a bot, the
conclusion replies with the no-winner announcement carrying participant
count zero, and the store record is removed; `Giveaway.end` returns
normally (it is a total function, no error is modelled as escaping). -/
theorem conclude_no_participants
    (gw : Giveaway) (seed : Nat) (s : Store) (bot : BotClient)
    (ch : Channel) (msg : Message) (reaction : Reaction)
    (hch : bot.get_channel gw.channel_id = some ch)
    (hm : ch.fetch_message gw.message_id = Except.ok msg)
    (hr : msg.reactions.find? (fun r => r.emoji = entryEmoji) = some reaction)
    (hp : reaction.users.filter (fun user => !user.bot) = []) :
    replies (gw.«end» seed s bot).2 = [Announcement.noWinner 0] ∧
    Giveaway.from_database (gw.«end» seed s bot).1
      gw.guild_id gw.channel_id gw.message_id = none := by
  refine ⟨?_, from_database_end gw seed s bot⟩
  simp [Giveaway.«end», hch, hm, hr, hp, replies]

theorem conclude_no_participants_witness :
    replies ((⟨1, 2, 3, 100, none⟩ : Giveaway).«end» 0
        ⟨[⟨"1/2/3", 1, 2, 3, 100⟩], []⟩
        ⟨fun _ => some ⟨fun _ => Except.ok ⟨[⟨"🎉", [⟨8, true⟩]⟩]⟩⟩⟩).2
      = [Announcement.noWinner 0] ∧
    Giveaway.from_database ((⟨1, 2, 3, 100, none⟩ : Giveaway).«end» 0
        ⟨[⟨"1/2/3", 1, 2, 3, 100⟩], []⟩
        ⟨fun _ => some ⟨fun _ => Except.ok ⟨[⟨"🎉", [⟨8, true⟩]⟩]⟩⟩⟩).1
      1 2 3 = none :=
  conclude_no_participants ⟨1, 2, 3, 100, none⟩ 0
    ⟨[⟨"1/2/3", 1, 2, 3, 100⟩], []⟩
    ⟨fun _ => some ⟨fun _ => Except.ok ⟨[⟨"🎉", [⟨8, true⟩]⟩]⟩⟩⟩
    ⟨fun _ => Except.ok ⟨[⟨"🎉", [⟨8, true⟩]⟩]⟩⟩
    ⟨[⟨"🎉", [⟨8, true⟩]⟩]⟩ ⟨"🎉", [⟨8, true⟩]⟩
    rfl rfl (by decide) (by decide)

/-- C8: on every platform-side absence — unresolvable channel, failing
message fetch of any kind, or missing entry reaction — `Giveaway.end`
returns silently: no reply is sent, no error escapes (the function is
total), and the store record is already deleted. -/
theorem conclude_silent_on_platform_absence
    (gw : Giveaway) (seed : Nat) (s : Store) (bot : BotClient)
    (h : bot.get_channel gw.channel_id = none
      ∨ (∃ ch e, bot.get_channel gw.channel_id = some ch ∧
            ch.fetch_message gw.message_id = Except.error e)
      ∨ (∃ ch msg, bot.get_channel gw.channel_id = some ch ∧
            ch.fetch_message gw.message_id = Except.ok msg ∧
            msg.reactions.find? (fun r => r.emoji = entryEmoji) = none)) :
    replies (gw.«end» seed s bot).2 = [] ∧
    Giveaway.from_database (gw.«end» seed s bot).1
      gw.guild_id gw.channel_id gw.message_id = none := by
  refine ⟨?_, from_database_end gw seed s bot⟩
  rcases h with hch | ⟨ch, e, hch, hm⟩ | ⟨ch, msg, hch, hm, hr⟩
  · simp [Giveaway.«end», hch, replies]
  · simp [Giveaway.«end», hch, hm, replies]
  · simp [Giveaway.«end», hch, hm, hr, replies]

theorem conclude_silent_on_platform_absence_witness :
    replies ((⟨1, 2, 3, 100, none⟩ : Giveaway).«end» 0
        ⟨[⟨"1/2/3", 1, 2, 3, 100⟩], []⟩ ⟨fun _ => none⟩).2 = [] ∧
    Giveaway.from_database ((⟨1, 2, 3, 100, none⟩ : Giveaway).«end» 0
        ⟨[⟨"1/2/3", 1, 2, 3, 100⟩], []⟩ ⟨fun _ => none⟩).1 1 2 3 = none :=
  conclude_silent_on_platform_absence ⟨1, 2, 3, 100, none⟩ 0
    ⟨[⟨"1/2/3", 1, 2, 3, 100⟩], []⟩ ⟨fun _ => none⟩ (Or.inl rfl)

/-! ## Upsert lemmas -/

/-- Upserting a reward row leaves the giveaways table unchanged. -/
theorem upsertRewardRow_giveaways (st : Store) (row : RoleRewardRow) :
    (upsertRewardRow st row).giveaways = st.giveaways := by
  unfold upsertRewardRow
  dsimp only
  split <;> rfl

/-- Upserting a giveaway row leaves the rewards table unchanged. -/
theorem upsertGiveawayRow_rewards (st : Store) (row : GiveawayRow) :
    (upsertGiveawayRow st row).giveaway_role_rewards = st.giveaway_role_rewards := by
  unfold upsertGiveawayRow
  split <;> rfl

/-- Folding reward upserts leaves the giveaways table unchanged. -/
theorem foldl_upsertRewardRow_giveaways (rewards : List GiveawayRoleReward)
    (st : Store) (id : String) :
    ((rewards.foldl (fun st reward => upsertRewardRow st ⟨reward.role_id, id⟩)
      st)).giveaways = st.giveaways := by
  induction rewards generalizing st with
  | nil => rfl
  | cons r rs ih => rw [List.foldl_cons, ih, upsertRewardRow_giveaways]

/-- `Giveaway.update` changes the giveaways table exactly by the row
upsert. -/
theorem update_giveaways (gw : Giveaway) (s : Store) :
    (gw.update s).giveaways = (upsertGiveawayRow s gw.toRow).giveaways := by
  unfold Giveaway.update
  cases gw.role_rewards with
  | none => rfl
  | some rewards => exact foldl_upsertRewardRow_giveaways rewards _ gw._id

/-- After an in-place overwrite of a colliding row, the first row matching
the new row's id is the new row. -/
theorem filter_map_upsert (l : List GiveawayRow) (row : GiveawayRow)
    (h : l.any (fun r => r.id = row.id)) :
    ((l.map (fun r => if r.id = row.id then row else r)).filter
      (fun r => r.id = row.id)).head? = some row := by
  induction l with
  | nil => simp at h
  | cons x xs ih =>
    by_cases hx : x.id = row.id
    · simp [hx]
    · have h' : xs.any (fun r => r.id = row.id) := by
        simpa [List.any_cons, hx] using h
      simpa [hx] using ih h'

/-- After appending a fresh row, the rows matching its id are exactly the
new row. -/
theorem filter_append_upsert (l : List GiveawayRow) (row : GiveawayRow)
    (h : ¬ l.any (fun r => r.id = row.id)) :
    (l ++ [row]).filter (fun r => r.id = row.id) = [row] := by
  rw [List.filter_append]
  have h1 : l.filter (fun r => r.id = row.id) = [] := by
    apply List.filter_eq_nil_iff.mpr
    intro a ha
    simp only [List.any_eq_true] at h
    simp only [decide_eq_true_eq]
    exact fun hc => h ⟨a, ha, by simp [hc]⟩
  simp [h1]

/-- The first row found by id after upserting a row with that id is the
upserted row, for any store. -/
theorem selectById_upsert_head (s : Store) (row : GiveawayRow) :
    (selectGiveawaysById (upsertGiveawayRow s row) row.id).head? = some row := by
  unfold selectGiveawaysById upsertGiveawayRow
  by_cases h : s.giveaways.any (fun r => r.id = row.id)
  · rw [if_pos h]
    exact filter_map_upsert _ _ h
  · rw [if_neg h]
    rw [show ({ s with giveaways := s.giveaways ++ [row] } : Store).giveaways
      = s.giveaways ++ [row] from rfl]
    rw [filter_append_upsert _ _ h]
    rfl

/-! ## Claim theorems: identifier derivation and round-trip (C9) -/

/-- C9 counterexample: a giveaway carrying one role reward is written to an
empty store; `FindOne` returns it with an empty reward list, so the
attributes are not all equal to what was written. -/
theorem findone_roundtrip_counterexample :
    Giveaway.from_database
        (Giveaway.update ⟨1, 2, 3, 100, some [⟨5⟩]⟩ Store.empty) 1 2 3
      = some ⟨1, 2, 3, 100, some []⟩ ∧
    some (⟨1, 2, 3, 100, some []⟩ : Giveaway) ≠ some ⟨1, 2, 3, 100, some [⟨5⟩]⟩ := by
  decide

/-- C9 (amended): the derived identifier is the three ids joined by forward
slashes, for every giveaway; and a giveaway written to storage and looked
up by `FindOne` with its three ids comes back with equal `guild_id`,
`channel_id`, `message_id` and `ends_at` — but with `role_rewards` always
the empty list, since `from_database` reads only the `giveaways` row. -/
theorem identifier_derivation_and_roundtrip (gw : Giveaway) (s : Store) :
    gw._id = toString gw.guild_id ++ "/" ++ toString gw.channel_id
      ++ "/" ++ toString gw.message_id ∧
    Giveaway.from_database (gw.update s) gw.guild_id gw.channel_id gw.message_id
      = some ⟨gw.guild_id, gw.channel_id, gw.message_id, gw.ends_at, some []⟩ := by
  refine ⟨rfl, ?_⟩
  have hsel : (selectGiveawaysById (gw.update s)
      (generate_id gw.guild_id gw.channel_id gw.message_id)).head? = some gw.toRow := by
    have heq : selectGiveawaysById (gw.update s)
        (generate_id gw.guild_id gw.channel_id gw.message_id)
        = selectGiveawaysById (upsertGiveawayRow s gw.toRow) gw.toRow.id := by
      unfold selectGiveawaysById
      rw [update_giveaways]
      rfl
    rw [heq]
    exact selectById_upsert_head s gw.toRow
  unfold Giveaway.from_database
  cases hl : selectGiveawaysById (gw.update s)
      (generate_id gw.guild_id gw.channel_id gw.message_id) with
  | nil => rw [hl] at hsel; simp at hsel
  | cons d rest =>
    rw [hl] at hsel
    simp only [List.head?_cons, Option.some.injEq] at hsel
    subst hsel
    simp [Giveaway.from_dict, GiveawayRow.toDict, Giveaway.toRow]

/-! ## Nodup-aware upsert lemmas and reward retention -/

/-- The in-place overwrite of a colliding row does not change the id
column of any row. -/
theorem map_upsert_ids (l : List GiveawayRow) (row : GiveawayRow) :
    (l.map (fun r => if r.id = row.id then row else r)).map (fun r => r.id)
      = l.map (fun r => r.id) := by
  induction l with
  | nil => rfl
  | cons x xs ih =>
    by_cases hx : x.id = row.id
    · simp [hx, ih]
    · simp [hx, ih]

/-- Upserting a giveaway row preserves uniqueness of ids. -/
theorem upsert_nodup (s : Store) (row : GiveawayRow)
    (hnd : (s.giveaways.map (fun r => r.id)).Nodup) :
    ((upsertGiveawayRow s row).giveaways.map (fun r => r.id)).Nodup := by
  unfold upsertGiveawayRow
  by_cases h : s.giveaways.any (fun r => r.id = row.id)
  · rw [if_pos h]
    show ((s.giveaways.map (fun r => if r.id = row.id then row else r)).map
      (fun r => r.id)).Nodup
    rw [map_upsert_ids]
    exact hnd
  · rw [if_neg h]
    show ((s.giveaways ++ [row]).map (fun r => r.id)).Nodup
    rw [List.map_append]
    rw [List.nodup_append]
    refine ⟨hnd, by simp, ?_⟩
    intro x hx hx2
    simp only [List.map_cons, List.map_nil, List.mem_singleton] at hx2
    subst hx2
    simp only [List.any_eq_true] at h
    obtain ⟨r, hr, hrid⟩ := List.mem_map.mp hx
    exact h ⟨r, hr, by simp [hrid]⟩

/-- `Giveaway.update` preserves uniqueness of ids. -/
theorem update_nodup (gw : Giveaway) (s : Store)
    (hnd : (s.giveaways.map (fun r => r.id)).Nodup) :
    ((gw.update s).giveaways.map (fun r => r.id)).Nodup := by
  rw [update_giveaways]
  exact upsert_nodup s gw.toRow hnd

/-- When no row of `xs` matches the id, the overwrite map leaves no row
matching it either. -/
theorem filter_map_upsert_none (xs : List GiveawayRow) (row : GiveawayRow)
    (hno : ∀ r ∈ xs, r.id ≠ row.id) :
    (xs.map (fun r => if r.id = row.id then row else r)).filter
      (fun r => r.id = row.id) = [] := by
  induction xs with
  | nil => rfl
  | cons x xs ih =>
    have hx : x.id ≠ row.id := hno x (by simp)
    simp only [List.map_cons, if_neg hx]
    rw [List.filter_cons_of_neg (by simp [hx])]
    exact ih (fun r hr => hno r (by simp [hr]))

/-- Under unique ids, after an in-place overwrite the rows matching the new
row's id are exactly the new row. -/
theorem filter_map_upsert_nodup (l : List GiveawayRow) (row : GiveawayRow)
    (hnd : (l.map (fun r => r.id)).Nodup)
    (h : l.any (fun r => r.id = row.id)) :
    (l.map (fun r => if r.id = row.id then row else r)).filter
      (fun r => r.id = row.id) = [row] := by
  induction l with
  | nil => simp at h
  | cons x xs ih =>
    simp only [List.map_cons, List.nodup_cons] at hnd
    by_cases hx : x.id = row.id
    · simp only [List.map_cons, if_pos hx]
      rw [List.filter_cons_of_pos (by simp)]
      rw [filter_map_upsert_none xs row ?_]
      · intro r hr hrid
        exact hnd.1 (by rw [← hx] at hrid; exact hrid ▸ List.mem_map_of_mem _ hr)
    · simp only [List.map_cons, if_neg hx]
      rw [List.filter_cons_of_neg (by simp [hx])]
      exact ih hnd.2 (by simpa [List.any_cons, hx] using h)

/-- Under unique ids, the rows matching an upserted row's id are exactly
the upserted row. -/
theorem selectById_upsert_eq (s : Store) (row : GiveawayRow)
    (hnd : (s.giveaways.map (fun r => r.id)).Nodup) :
    (upsertGiveawayRow s row).giveaways.filter (fun r => r.id = row.id) = [row] := by
  unfold upsertGiveawayRow
  by_cases h : s.giveaways.any (fun r => r.id = row.id)
  · rw [if_pos h]
    exact filter_map_upsert_nodup _ _ hnd h
  · rw [if_neg h]
    exact filter_append_upsert _ _ h

/-- Upserting a reward row keeps every reward row that was present: a
colliding row is overwritten by an identical row, a fresh row is
appended. -/
theorem mem_upsertRewardRow (st : Store) (x rr : RoleRewardRow)
    (h : rr ∈ st.giveaway_role_rewards) :
    rr ∈ (upsertRewardRow st x).giveaway_role_rewards := by
  unfold upsertRewardRow
  dsimp only
  split
  · have hf : ∀ r : RoleRewardRow,
        (if r.role_id = x.role_id ∧ r.giveaway_id = x.giveaway_id then x else r) = r := by
      intro r
      split
      · rename_i hhit
        obtain ⟨h1, h2⟩ := hhit
        cases r
        cases x
        simp_all
      · rfl
    show rr ∈ st.giveaway_role_rewards.map
      (fun r => if r.role_id = x.role_id ∧ r.giveaway_id = x.giveaway_id then x else r)
    rw [show (fun r : RoleRewardRow =>
      if r.role_id = x.role_id ∧ r.giveaway_id = x.giveaway_id then x else r) = id
      from funext hf]
    rw [List.map_id]
    exact h
  · exact List.mem_append_left _ h

/-- Folding reward upserts keeps every reward row that was present. -/
theorem mem_foldl_upsertRewardRow (rs : List GiveawayRoleReward) (st : Store)
    (id : String) (rr : RoleRewardRow) (h : rr ∈ st.giveaway_role_rewards) :
    rr ∈ ((rs.foldl (fun st reward => upsertRewardRow st ⟨reward.role_id, id⟩)
      st)).giveaway_role_rewards := by
  induction rs generalizing st with
  | nil => exact h
  | cons r rs ih =>
    rw [List.foldl_cons]
    exact ih _ (mem_upsertRewardRow st _ rr h)

/-- `Giveaway.update` keeps every reward row that was present. -/
theorem mem_update_rewards (gw : Giveaway) (st : Store) (rr : RoleRewardRow)
    (h : rr ∈ st.giveaway_role_rewards) :
    rr ∈ (gw.update st).giveaway_role_rewards := by
  unfold Giveaway.update
  cases gw.role_rewards with
  | none =>
    show rr ∈ (upsertGiveawayRow st gw.toRow).giveaway_role_rewards
    rw [upsertGiveawayRow_rewards]
    exact h
  | some rs =>
    refine mem_foldl_upsertRewardRow rs _ gw._id rr ?_
    rw [upsertGiveawayRow_rewards]
    exact h

/-! ## Claim theorems: upsert semantics (C4) -/

/-- C4 counterexample: upserting a second giveaway under the same composite
identifier does not replace the identifier's reward rows — the first
write's reward row survives next to the second's. -/
theorem upsert_reward_rows_not_replaced :
    (Giveaway.update ⟨1, 2, 3, 200, some [⟨20⟩]⟩
        (Giveaway.update ⟨1, 2, 3, 100, some [⟨5⟩]⟩ Store.empty)).giveaway_role_rewards
      = [⟨5, "1/2/3"⟩, ⟨20, "1/2/3"⟩] ∧
    [(⟨5, "1/2/3"⟩ : RoleRewardRow), ⟨20, "1/2/3"⟩] ≠ [⟨20, "1/2/3"⟩] := by
  decide

/-- C4 (amended): upserting a giveaway whose identifier collides with a
stored record fully replaces the giveaway record — after the second write
exactly one row is stored under the identifier and it carries the second
write's attributes — while reward rows are upserted individually on
`(role_id, giveaway_id)`: every reward row present before the second write
is retained, not removed. -/
theorem upsert_replaces_record_and_merges_rewards
    (gw1 gw2 : Giveaway) (s : Store)
    (hid : gw1._id = gw2._id)
    (hnd : (s.giveaways.map (fun r => r.id)).Nodup) :
    (gw2.update (gw1.update s)).giveaways.filter (fun r => r.id = gw1._id)
      = [gw2.toRow] ∧
    ∀ rr ∈ (gw1.update s).giveaway_role_rewards,
      rr ∈ (gw2.update (gw1.update s)).giveaway_role_rewards := by
  constructor
  · rw [hid]
    rw [update_giveaways gw2]
    exact selectById_upsert_eq (gw1.update s) gw2.toRow (update_nodup gw1 s hnd)
  · intro rr h
    exact mem_update_rewards gw2 _ rr h

theorem upsert_replaces_record_and_merges_rewards_witness :
    ((⟨1, 2, 3, 100, some [⟨5⟩]⟩ : Giveaway)._id
      = (⟨1, 2, 3, 200, some [⟨20⟩]⟩ : Giveaway)._id) ∧
    ((Store.empty.giveaways.map (fun r => r.id)).Nodup) ∧
    ((Giveaway.update ⟨1, 2, 3, 200, some [⟨20⟩]⟩
        (Giveaway.update ⟨1, 2, 3, 100, some [⟨5⟩]⟩ Store.empty)).giveaways.filter
        (fun r => r.id = (⟨1, 2, 3, 100, some [⟨5⟩]⟩ : Giveaway)._id)
      = [(⟨1, 2, 3, 200, some [⟨20⟩]⟩ : Giveaway).toRow]) ∧
    ((⟨5, "1/2/3"⟩ : RoleRewardRow) ∈ (Giveaway.update ⟨1, 2, 3, 200, some [⟨20⟩]⟩
        (Giveaway.update ⟨1, 2, 3, 100, some [⟨5⟩]⟩ Store.empty)).giveaway_role_rewards) := by
  have h := upsert_replaces_record_and_merges_rewards
    ⟨1, 2, 3, 100, some [⟨5⟩]⟩ ⟨1, 2, 3, 200, some [⟨20⟩]⟩ Store.empty
    (by decide) (by decide)
  exact ⟨by decide, by decide, h.1, h.2 ⟨5, "1/2/3"⟩ (by decide)⟩

/-! ## The two-query join, characterised -/

/-- The net effect on one dict entry's reward list of appending a batch of
reward dicts one by one: an empty batch leaves the entry alone (the key
stays absent), otherwise the key holds the accumulated list. -/
def appendRewards (o : Option (List GiveawayRoleRewardDict)) :
    List GiveawayRoleRewardDict → Option (List GiveawayRoleRewardDict)
  | [] => o
  | l => some (o.getD [] ++ l)

theorem appendRewards_some (L fl : List GiveawayRoleRewardDict) :
    appendRewards (some L) fl = some (L ++ fl) := by
  cases fl with
  | nil => simp [appendRewards]
  | cons x xs => simp [appendRewards]

theorem appendRewards_getD (o : Option (List GiveawayRoleRewardDict))
    (fl : List GiveawayRoleRewardDict) :
    (appendRewards o fl).getD [] = o.getD [] ++ fl := by
  cases fl with
  | nil => simp [appendRewards]
  | cons x xs => simp [appendRewards]

/-- Folding `dictAppendReward` over a batch of reward rows updates every
dict entry by exactly the sub-batch keyed to it, in order. -/
theorem foldl_dictAppendReward (rrs : List RoleRewardRow)
    (d : List (String × PayloadRow)) :
    rrs.foldl dictAppendReward d
      = d.map (fun p => (p.1, ⟨p.2.row,
          appendRewards p.2.role_rewards
            ((rrs.filter (fun rr => rr.giveaway_id = p.1)).map
              (fun rr => ⟨rr.role_id⟩))⟩)) := by
  induction rrs generalizing d with
  | nil => exact (List.map_id d).symm
  | cons rr rrs ih =>
    rw [List.foldl_cons, ih]
    unfold dictAppendReward
    rw [List.map_map]
    refine List.map_congr_left ?_
    intro p _
    by_cases hkey : p.1 = rr.giveaway_id
    · simp only [Function.comp, if_pos hkey]
      rw [appendRewards_some]
      rw [List.filter_cons_of_pos (by simp [hkey])]
      rw [List.map_cons]
      show (p.1, (⟨p.2.row, _⟩ : PayloadRow)) = (p.1, ⟨p.2.row, _⟩)
      refine congrArg _ (congrArg _ ?_)
      show some _ = appendRewards p.2.role_rewards (_ :: _)
      rw [show appendRewards p.2.role_rewards
          ((⟨rr.role_id⟩ : GiveawayRoleRewardDict) ::
            (rrs.filter (fun rr => rr.giveaway_id = p.1)).map (fun rr => ⟨rr.role_id⟩))
        = some (p.2.role_rewards.getD [] ++ ⟨rr.role_id⟩ ::
            (rrs.filter (fun rr => rr.giveaway_id = p.1)).map (fun rr => ⟨rr.role_id⟩))
        from rfl]
      simp
    · simp only [Function.comp, if_neg hkey]
      rw [List.filter_cons_of_neg (by simpa using fun h => hkey h.symm)]

/-- Building the payload dict from rows with unique ids appends one entry
per row, in order. -/
theorem foldl_dictInsert (rows : List GiveawayRow)
    (acc : List (String × PayloadRow))
    (hnd : ((acc.map (fun p => p.1)) ++ rows.map (fun r => r.id)).Nodup) :
    rows.foldl (fun d r => dictInsert d r.id ⟨r, none⟩) acc
      = acc ++ rows.map (fun r => (r.id, ⟨r, none⟩)) := by
  induction rows generalizing acc with
  | nil => simp
  | cons r rows ih =>
    rw [List.foldl_cons]
    have hnot : ¬ acc.any (fun p => p.1 = r.id) := by
      rw [List.nodup_append] at hnd
      intro hany
      simp only [List.any_eq_true, decide_eq_true_eq] at hany
      obtain ⟨p, hp, hpid⟩ := hany
      exact hnd.2.2 (List.mem_map_of_mem _ hp) (by simp [hpid])
    have hins : dictInsert acc r.id ⟨r, none⟩
        = acc ++ [(r.id, (⟨r, none⟩ : PayloadRow))] := by
      unfold dictInsert
      rw [if_neg hnot]
    rw [hins, ih (acc ++ [(r.id, (⟨r, none⟩ : PayloadRow))])
      (by simpa [List.map_append, List.append_assoc] using hnd)]
    simp

/-- Filtering reward rows to a set of parent ids and then to one id in the
set is the same as filtering to that id directly. -/
theorem double_filter_rewards (l : List RoleRewardRow) (ids : List String)
    (k : String) (hk : k ∈ ids) :
    (l.filter (fun rr => ids.contains rr.giveaway_id)).filter
      (fun rr => rr.giveaway_id = k) = l.filter (fun rr => rr.giveaway_id = k) := by
  induction l with
  | nil => rfl
  | cons x xs ih =>
    simp only [List.filter_cons]
    by_cases hc : ids.contains x.giveaway_id
    · rw [if_pos hc]
      simp only [List.filter_cons]
      by_cases hx : x.giveaway_id = k
      · rw [if_pos (by simp [hx]), if_pos (by simp [hx]), ih]
      · rw [if_neg (by simp [hx]), if_neg (by simp [hx]), ih]
    · rw [if_neg hc, ih]
      have hx : ¬ x.giveaway_id = k := fun h => hc (by
        rw [h]
        exact List.elem_eq_true_of_mem hk)
      rw [if_neg (by simp [hx])]

/-- The giveaway the two-query join reconstructs for a stored row: the
row's columns, with exactly the reward rows whose `giveaway_id` is the
row's id. -/
def rowToGiveaway (s : Store) (r : GiveawayRow) : Giveaway :=
  { guild_id := r.guild_id
    channel_id := r.channel_id
    message_id := r.message_id
    ends_at := r.ends_at
    role_rewards := some (((s.giveaway_role_rewards.filter
      (fun rr => rr.giveaway_id = r.id)).map
        (fun rr => GiveawayRoleReward.from_dict ⟨rr.role_id⟩))) }

/-- The two-query join, characterised: on rows with unique ids it passes
the row ids to the reward query and reconstructs each row, in order, into
`rowToGiveaway`. -/
theorem joinRewards_spec (s : Store) (rows : List GiveawayRow)
    (hnd : (rows.map (fun r => r.id)).Nodup) :
    (joinRewards s rows).1 = rows.map (fun r => r.id) ∧
    (joinRewards s rows).2 = rows.map (fun r => rowToGiveaway s r) := by
  have hpayload : rows.foldl (fun d r => dictInsert d r.id ⟨r, none⟩) []
      = rows.map (fun r => (r.id, (⟨r, none⟩ : PayloadRow))) := by
    simpa using foldl_dictInsert rows [] (by simpa using hnd)
  have hkeys : (rows.map (fun r => (r.id, (⟨r, none⟩ : PayloadRow)))).map
      (fun p => p.1) = rows.map (fun r => r.id) := by
    rw [List.map_map]
    rfl
  simp only [joinRewards]
  rw [hpayload, hkeys]
  refine ⟨rfl, ?_⟩
  rw [foldl_dictAppendReward, List.map_map, List.map_map]
  refine List.map_congr_left ?_
  intro r hr
  have hk : r.id ∈ rows.map (fun r => r.id) := List.mem_map_of_mem _ hr
  show Giveaway.from_dict (PayloadRow.toDict
      ⟨r, appendRewards none
        (((s.giveaway_role_rewards.filter
            (fun rr => (rows.map (fun r => r.id)).contains rr.giveaway_id)).filter
          (fun rr => rr.giveaway_id = r.id)).map (fun rr => ⟨rr.role_id⟩))⟩)
    = rowToGiveaway s r
  rw [double_filter_rewards _ _ _ hk]
  simp [Giveaway.from_dict, PayloadRow.toDict, rowToGiveaway, appendRewards_getD,
    List.map_map]

/-- A store whose giveaways table is a sublist of a well-formed store's is
well-formed (well-formedness constrains only the giveaways table). -/
theorem sublist_WF (s X : Store) (hwf : s.WF)
    (h : X.giveaways.Sublist s.giveaways) : X.WF :=
  ⟨hwf.1.sublist (h.map _), fun r hr => hwf.2 r (h.subset hr)⟩

/-- The reward list carried by a reconstructed giveaway is exactly the
reward rows keyed by its derived identifier. -/
theorem rowToGiveaway_rewards (s : Store) (r : GiveawayRow)
    (hr : r ∈ s.giveaways) (hwf : s.WF) :
    (rowToGiveaway s r).role_rewards
      = some ((s.giveaway_role_rewards.filter
          (fun rr => rr.giveaway_id = (rowToGiveaway s r)._id)).map
            (fun rr => GiveawayRoleReward.from_dict ⟨rr.role_id⟩)) := by
  have hid : (rowToGiveaway s r)._id = r.id := (hwf.2 r hr).symm
  rw [hid]
  rfl

/-! ## Claim theorem: reward join correctness (C5) -/

/-- C5: every giveaway returned by `get_giveaways` — under any filter —
carries exactly the reward rows whose `giveaway_id` equals its identifier:
zero, one or many, with no cross-giveaway leakage, however many giveaways
with rewards are stored. -/
theorem reward_join_correctness (s : Store) (guild channel message : Option Int)
    (gs : List Giveaway) (hwf : s.WF)
    (hok : (get_giveaways s guild channel message).1 = .ok gs) :
    ∀ gw ∈ gs, gw.role_rewards
      = some ((s.giveaway_role_rewards.filter
          (fun rr => rr.giveaway_id = gw._id)).map
            (fun rr => GiveawayRoleReward.from_dict ⟨rr.role_id⟩)) := by
  have main : ∀ rows : List GiveawayRow, rows.Sublist s.giveaways →
      ∀ gw ∈ rows.map (rowToGiveaway s), gw.role_rewards
        = some ((s.giveaway_role_rewards.filter
            (fun rr => rr.giveaway_id = gw._id)).map
              (fun rr => GiveawayRoleReward.from_dict ⟨rr.role_id⟩)) := by
    intro rows hsub gw hgw
    obtain ⟨r, hr, rfl⟩ := List.mem_map.mp hgw
    exact rowToGiveaway_rewards s r (hsub.subset hr) hwf
  have hjoin : ∀ rows : List GiveawayRow, rows.Sublist s.giveaways →
      (joinRewards s rows).2 = rows.map (rowToGiveaway s) :=
    fun rows hsub =>
      (joinRewards_spec s rows (hwf.1.sublist (hsub.map _))).2
  unfold get_giveaways at hok
  split at hok
  · simp at hok
  · split at hok
    · simp only at hok
      rw [hjoin _ (List.filter_sublist _)] at hok
      obtain rfl := Except.ok.inj hok
      exact main _ (List.filter_sublist _)
    · simp only at hok
      rw [hjoin _ (List.filter_sublist _)] at hok
      obtain rfl := Except.ok.inj hok
      exact main _ (List.filter_sublist _)
    · simp only at hok
      rw [hjoin _ (List.filter_sublist _)] at hok
      obtain rfl := Except.ok.inj hok
      exact main _ (List.filter_sublist _)
    · simp only at hok
      rw [hjoin _ (List.Sublist.refl _)] at hok
      obtain rfl := Except.ok.inj hok
      exact main _ (List.Sublist.refl _)

/-! ## The scheduler tick, characterised -/

/-- `FindOne` is not-found exactly when no stored row carries the derived
id. -/
theorem from_database_eq_none (X : Store) (g c m : Int)
    (h : ∀ row ∈ X.giveaways, row.id ≠ generate_id g c m) :
    Giveaway.from_database X g c m = none := by
  unfold Giveaway.from_database
  have hsel : selectGiveawaysById X (generate_id g c m) = [] := by
    apply List.filter_eq_nil_iff.mpr
    intro a ha
    simpa using h a ha
  rw [hsel]

/-- With no filter, `get_giveaways` on a store with unique ids returns
every stored row, reconstructed. -/
theorem get_giveaways_all (s : Store)
    (hnd : (s.giveaways.map (fun r => r.id)).Nodup) :
    (get_giveaways s none none none).1 = .ok (s.giveaways.map (rowToGiveaway s)) := by
  unfold get_giveaways
  rw [if_neg (by simp)]
  exact congrArg Except.ok (joinRewards_spec s s.giveaways hnd).2

/-- The ready tick is the fold of conditional conclusions over the
reconstructed giveaways. -/
theorem giveaway_checker_true (now : Int) (seed : Nat) (s : Store)
    (bot : BotClient) (hnd : (s.giveaways.map (fun r => r.id)).Nodup) :
    giveaway_checker true now seed s bot
      = (s.giveaways.map (rowToGiveaway s)).foldl
          (fun st gw => if gw.ends_at ≤ now then (gw.«end» seed st bot).1 else st) s := by
  unfold giveaway_checker
  rw [get_giveaways_all s hnd]
  rfl

/-- Row membership after the fold of conditional conclusions: a row
survives iff no processed due giveaway carries its id. -/
theorem mem_fold_end (now : Int) (seed : Nat) (bot : BotClient) (r : GiveawayRow) :
    ∀ (gws : List Giveaway) (st : Store),
      (r ∈ ((gws.foldl (fun st gw =>
          if gw.ends_at ≤ now then (gw.«end» seed st bot).1 else st) st)).giveaways
        ↔ r ∈ st.giveaways ∧ ∀ gw ∈ gws, gw.ends_at ≤ now → gw._id ≠ r.id) := by
  intro gws
  induction gws with
  | nil => intro st; simp
  | cons gw gws ih =>
    intro st
    rw [List.foldl_cons, ih]
    by_cases hdue : gw.ends_at ≤ now
    · simp only [if_pos hdue, end_fst]
      simp only [deleteGiveawayRows, List.mem_filter, List.forall_mem_cons, hdue,
        decide_eq_true_eq, ne_eq, true_implies]
      tauto
    · simp only [if_neg hdue]
      simp only [List.forall_mem_cons, hdue, false_implies, true_and]

/-- The fold of conditional conclusions only removes rows. -/
theorem fold_end_sublist (now : Int) (seed : Nat) (bot : BotClient) :
    ∀ (gws : List Giveaway) (st : Store),
      ((gws.foldl (fun st gw =>
        if gw.ends_at ≤ now then (gw.«end» seed st bot).1 else st) st)).giveaways.Sublist
          st.giveaways := by
  intro gws
  induction gws with
  | nil => intro st; exact List.Sublist.refl _
  | cons gw gws ih =>
    intro st
    rw [List.foldl_cons]
    refine (ih _).trans ?_
    by_cases hdue : gw.ends_at ≤ now
    · simp only [if_pos hdue, end_fst]
      exact List.filter_sublist _
    · simp only [if_neg hdue]
      exact List.Sublist.refl _

/-- A ready tick only removes rows from the giveaways table. -/
theorem tick_sublist (now : Int) (seed : Nat) (s : Store) (bot : BotClient) :
    (giveaway_checker true now seed s bot).giveaways.Sublist s.giveaways := by
  unfold giveaway_checker
  cases hg : (get_giveaways s none none none).1 with
  | error e => exact List.Sublist.refl _
  | ok gs => exact fold_end_sublist now seed bot gs s

/-- A ready tick preserves the store invariant. -/
theorem tick_WF (now : Int) (seed : Nat) (s : Store) (bot : BotClient)
    (hwf : s.WF) : (giveaway_checker true now seed s bot).WF :=
  sublist_WF s _ hwf (tick_sublist now seed s bot)

/-- Row membership after one ready tick on a well-formed store. -/
theorem tick_mem (now : Int) (seed : Nat) (s : Store) (bot : BotClient)
    (hwf : s.WF) (r : GiveawayRow) :
    r ∈ (giveaway_checker true now seed s bot).giveaways
      ↔ r ∈ s.giveaways ∧ ∀ r' ∈ s.giveaways, r'.ends_at ≤ now → r'.id ≠ r.id := by
  rw [giveaway_checker_true now seed s bot hwf.1, mem_fold_end]
  constructor
  · rintro ⟨h1, h2⟩
    refine ⟨h1, fun r' hr' hdue => ?_⟩
    have hne := h2 (rowToGiveaway s r') (List.mem_map_of_mem _ hr') hdue
    rw [show (rowToGiveaway s r')._id = r'.id from (hwf.2 r' hr').symm] at hne
    exact hne
  · rintro ⟨h1, h2⟩
    refine ⟨h1, ?_⟩
    intro gw hgw hdue
    obtain ⟨r', hr', rfl⟩ := List.mem_map.mp hgw
    rw [show (rowToGiveaway s r')._id = r'.id from (hwf.2 r' hr').symm]
    exact h2 r' hr' hdue

/-- A not-yet-due row survives any sequence of ready ticks whose times are
all before its deadline. -/
theorem survive_ticks (seed : Nat) (bot : BotClient) (r : GiveawayRow) :
    ∀ (ts : List Int) (s : Store), s.WF → r ∈ s.giveaways →
      (∀ t ∈ ts, t < r.ends_at) →
      r ∈ ((ts.foldl (fun st t => giveaway_checker true t seed st bot) s)).giveaways := by
  intro ts
  induction ts with
  | nil =>
    intro s _ hr _
    simpa using hr
  | cons t ts ih =>
    intro s hwf hr hts
    rw [List.foldl_cons]
    have hmem : r ∈ (giveaway_checker true t seed s bot).giveaways := by
      rw [tick_mem t seed s bot hwf r]
      refine ⟨hr, fun r' hr' hdue hid => ?_⟩
      have heq : r' = r := List.inj_on_of_nodup_map hwf.1 hr' hr hid
      subst heq
      exact absurd (hts t (by simp)) (not_lt.mpr hdue)
    exact ih _ (tick_WF t seed s bot hwf) hmem (fun t' ht' => hts t' (by simp [ht']))

/-! ## Claim theorem: scheduler due-detection (C2) -/

/-- C2: on a ready sweep tick over a well-formed store, every stored
giveaway whose `ends_at` is at or before now is concluded — its record is
gone, `FindOne` is not-found — while every giveaway with `ends_at` in the
future is left untouched and remains stored across arbitrarily many
further ticks whose times precede its deadline. -/
theorem scheduler_due_detection (s : Store) (bot : BotClient) (now : Int)
    (seed : Nat) (hwf : s.WF) (r : GiveawayRow) (hr : r ∈ s.giveaways) :
    (r.ends_at ≤ now →
      Giveaway.from_database (giveaway_checker true now seed s bot)
        r.guild_id r.channel_id r.message_id = none) ∧
    (∀ ts : List Int, (∀ t ∈ ts, t < r.ends_at) →
      r ∈ ((ts.foldl (fun st t => giveaway_checker true t seed st bot) s)).giveaways) := by
  constructor
  · intro hdue
    apply from_database_eq_none
    intro row hrow
    rw [tick_mem now seed s bot hwf row] at hrow
    intro hid
    have hrid : row.id = r.id := by
      rw [hid]
      exact (hwf.2 r hr).symm
    exact hrow.2 r hr hdue hrid.symm
  · intro ts hts
    exact survive_ticks seed bot r ts s hwf hr hts

theorem scheduler_due_detection_witness :
    Giveaway.from_database
        (giveaway_checker true 150 0
          ⟨[⟨"1/2/3", 1, 2, 3, 100⟩, ⟨"1/2/4", 1, 2, 4, 300⟩], []⟩ ⟨fun _ => none⟩)
        1 2 3 = none ∧
    (⟨"1/2/4", 1, 2, 4, 300⟩ : GiveawayRow) ∈ (([150] : List Int).foldl
        (fun st t => giveaway_checker true t 0 st ⟨fun _ => none⟩)
        ⟨[⟨"1/2/3", 1, 2, 3, 100⟩, ⟨"1/2/4", 1, 2, 4, 300⟩], []⟩).giveaways := by
  constructor
  · exact (scheduler_due_detection
      ⟨[⟨"1/2/3", 1, 2, 3, 100⟩, ⟨"1/2/4", 1, 2, 4, 300⟩], []⟩ ⟨fun _ => none⟩
      150 0 (by decide) ⟨"1/2/3", 1, 2, 3, 100⟩ (by decide)).1 (by decide)
  · exact (scheduler_due_detection
      ⟨[⟨"1/2/3", 1, 2, 3, 100⟩, ⟨"1/2/4", 1, 2, 4, 300⟩], []⟩ ⟨fun _ => none⟩
      150 0 (by decide) ⟨"1/2/4", 1, 2, 4, 300⟩ (by decide)).2 [150] (by decide)

/-- C5 witness data: a store holding giveaways with zero, one and three
rewards respectively; the three-reward giveaway comes back with exactly its
three rewards. -/
theorem reward_join_correctness_witness :
    (⟨[⟨"1/2/3", 1, 2, 3, 100⟩, ⟨"1/2/4", 1, 2, 4, 100⟩, ⟨"1/2/5", 1, 2, 5, 100⟩],
      [⟨10, "1/2/4"⟩, ⟨21, "1/2/5"⟩, ⟨22, "1/2/5"⟩, ⟨23, "1/2/5"⟩]⟩ : Store).WF ∧
    (⟨1, 2, 5, 100, some [⟨21⟩, ⟨22⟩, ⟨23⟩]⟩ : Giveaway).role_rewards
      = some (((⟨[⟨"1/2/3", 1, 2, 3, 100⟩, ⟨"1/2/4", 1, 2, 4, 100⟩,
            ⟨"1/2/5", 1, 2, 5, 100⟩],
          [⟨10, "1/2/4"⟩, ⟨21, "1/2/5"⟩, ⟨22, "1/2/5"⟩, ⟨23, "1/2/5"⟩]⟩ :
            Store).giveaway_role_rewards.filter
          (fun rr => rr.giveaway_id
            = (⟨1, 2, 5, 100, some [⟨21⟩, ⟨22⟩, ⟨23⟩]⟩ : Giveaway)._id)).map
            (fun rr => GiveawayRoleReward.from_dict ⟨rr.role_id⟩)) := by
  refine ⟨by decide, ?_⟩
  exact reward_join_correctness
    ⟨[⟨"1/2/3", 1, 2, 3, 100⟩, ⟨"1/2/4", 1, 2, 4, 100⟩, ⟨"1/2/5", 1, 2, 5, 100⟩],
      [⟨10, "1/2/4"⟩, ⟨21, "1/2/5"⟩, ⟨22, "1/2/5"⟩, ⟨23, "1/2/5"⟩]⟩
    none none none
    [⟨1, 2, 3, 100, some []⟩, ⟨1, 2, 4, 100, some [⟨10⟩]⟩,
      ⟨1, 2, 5, 100, some [⟨21⟩, ⟨22⟩, ⟨23⟩]⟩]
    (by decide) rfl
    ⟨1, 2, 5, 100, some [⟨21⟩, ⟨22⟩, ⟨23⟩]⟩ (by decide)

end BetterGiveaways
